import Mathlib

/-!
Verification of the core numeric pipeline of `coastal_construction_app.py`
(wave energy flux, sediment transport, shoreline-change gradient, parameter
sweeps, chemistry adapter error path, cost estimators).

Machine floating point is modelled by exact real arithmetic (`ℝ`); the
source formulas involve `π` and `sin`, so the embedding is necessarily over
the real field.
-/

noncomputable section

/-- Model of `compute_wave_energy(Hs, Tp)` from the source:
`rho = 1025; g = 9.81; E = (1/8)*rho*g*Hs**2; Cg = g*Tp/(4*np.pi); return E*Cg`. -/
def compute_wave_energy (Hs Tp : ℝ) : ℝ :=
  let rho : ℝ := 1025
  let g : ℝ := 9.81
  let E := (1/8) * rho * g * Hs^2
  let Cg := g * Tp / (4 * Real.pi)
  E * Cg

/-- Model of `np.radians(x)`: degrees to radians. -/
def radians (x : ℝ) : ℝ := x * Real.pi / 180

/-- Model of `estimate_sediment_transport(Hs, angle, Tp)` from the source:
`K = 0.77; return K * Hs**2 * np.sin(2 * np.radians(angle)) * Tp`. -/
def estimate_sediment_transport (Hs angle Tp : ℝ) : ℝ :=
  let K : ℝ := 0.77
  K * Hs^2 * Real.sin (2 * radians angle) * Tp

/-- Model of one-dimensional `np.gradient(Q, dx)` with uniform spacing and the
default `edge_order=1`: one-sided differences at the two boundary indices,
central differences at interior indices.  The model is meaningful for
`Q.length ≥ 2` (numpy raises `ValueError` on shorter inputs). -/
def npGradient (Q : List ℝ) (dx : ℝ) : List ℝ :=
  (List.range Q.length).map fun i =>
    if i = 0 then (Q.getD 1 0 - Q.getD 0 0) / dx
    else if i = Q.length - 1 then
      (Q.getD (Q.length - 1) 0 - Q.getD (Q.length - 2) 0) / dx
    else (Q.getD (i + 1) 0 - Q.getD (i - 1) 0) / (2 * dx)

/-- Model of `predict_shoreline_change(Q_sed)` from the source:
`dx = 100; dQdx = np.gradient(Q_sed, dx); return -dQdx`. -/
def predict_shoreline_change (Q_sed : List ℝ) : List ℝ :=
  let dx : ℝ := 100
  (npGradient Q_sed dx).map fun x => -x

/-- Model of `np.linspace(start, stop, num)` with the default
`endpoint=True`: the `i`-th value is `start + i*(stop-start)/(num-1)`. -/
def linspace (start stop : ℝ) (num : ℕ) : List ℝ :=
  (List.range num).map fun (i : ℕ) => start + (i : ℝ) * (stop - start) / ((num : ℝ) - 1)

/-- Model of the height sweep from the wave page:
`Hs_array = np.linspace(max(0.1, Hs - 0.5), Hs + 0.5, 20)`. -/
def Hs_array (Hs : ℝ) : List ℝ := linspace (max 0.1 (Hs - 0.5)) (Hs + 0.5) 20

/-- Model of the angle sweep from the wave page:
`angle_array = np.linspace(max(0, angle - 10), min(angle + 10, 90), 20)`. -/
def angle_array (angle : ℝ) : List ℝ :=
  linspace (max 0 (angle - 10)) (min (angle + 10) 90) 20

/-- The `OmegaAR` value returned by the external carbonate equilibrium
solver: duck-typed in the source as either a scalar or an array. -/
inductive OmegaOut
  | scalar (x : ℝ)
  | array (xs : List ℝ)

/-- Model of the extraction step of `carbonate_impact`:
`omega[0] if isinstance(omega, (list, np.ndarray)) else omega`. -/
def extractOmega : OmegaOut → ℝ
  | .scalar x => x
  | .array xs => xs.headD 0

/-- Model of `carbonate_impact(TA, DIC)` from the source.  The external
solver (`pyco2.sys`) is a parameter returning either an `OmegaAR` value or a
failure; the adapter itself contains no exception handling, so a solver
failure passes through unchanged. -/
def carbonate_impact (solver : ℝ → ℝ → Except String OmegaOut) (TA DIC : ℝ) :
    Except String ℝ :=
  (solver TA DIC).map extractOmega

/-- What the chemistry page renders: a metric on success, or the error text
produced by the page-level `except` clause. -/
inductive ChemPageView
  | metric (omega : ℝ)
  | errorShown (msg : String)

/-- Model of the chemistry page body (source lines 178-182):
`try: omega = carbonate_impact(TA, DIC); st.metric(...)` and
`except Exception as e: st.error(f"Error in carbonate calculation: ...")`. -/
def chemistryPage (solver : ℝ → ℝ → Except String OmegaOut) (TA DIC : ℝ) :
    ChemPageView :=
  match carbonate_impact solver TA DIC with
  | .ok omega => .metric omega
  | .error e => .errorShown ("Error in carbonate calculation: " ++ e)

/-- Model of the cost page from the source: `total_cost = area * cost_per_m2`. -/
def total_cost (area cost_per_m2 : ℝ) : ℝ := area * cost_per_m2

/-- Structure types of the rate-table cost model. -/
inductive StructureType
  | Seawall
  | Jetty
  | Breakwater

/-- Modelled from the spec: the fixed rate table
`{Seawall: 1500, Jetty: 2000, Breakwater: 2500}` of the rate-table cost
model.  The rate-table calculator is described by the spec as one of the two
near-duplicate app copies; the copy under `src/` contains only the
area-times-unit-cost page, so this definition follows the spec's words. -/
def rateTable : StructureType → ℝ
  | .Seawall => 1500
  | .Jetty => 2000
  | .Breakwater => 2500

/-- Modelled from the spec: the rate-table cost model
`cost = length · height · rate[structureType]` (missing from `src/`, see
`rateTable`). -/
def rateTableCost (t : StructureType) (length height : ℝ) : ℝ :=
  length * height * rateTable t

end

/-! ## Helper lemmas -/

/-- Unfolding lemma for `compute_wave_energy`. -/
lemma compute_wave_energy_eq (Hs Tp : ℝ) :
    compute_wave_energy Hs Tp
      = (1/8) * 1025 * 9.81 * Hs^2 * (9.81 * Tp / (4 * Real.pi)) := rfl

/-- Unfolding lemma for `estimate_sediment_transport`. -/
lemma estimate_sediment_transport_eq (Hs angle Tp : ℝ) :
    estimate_sediment_transport Hs angle Tp
      = 0.77 * Hs^2 * Real.sin (2 * (angle * Real.pi / 180)) * Tp := rfl

/-- Reading an in-range entry of a list built by mapping over `List.range`. -/
lemma getD_range_map (f : ℕ → ℝ) (n i : ℕ) (hi : i < n) :
    ((List.range n).map f).getD i 0 = f i := by
  rw [List.getD_eq_getElem?_getD, List.getElem?_map, List.getElem?_range hi]
  rfl

/-- Entry `i` of the `linspace` model, for `i < num`. -/
lemma linspace_getD (s t : ℝ) (n i : ℕ) (hi : i < n) :
    (linspace s t n).getD i 0 = s + (i : ℝ) * (t - s) / ((n : ℝ) - 1) := by
  unfold linspace
  exact getD_range_map _ n i hi

/-- Length of the `linspace` model. -/
lemma linspace_length (s t : ℝ) (n : ℕ) : (linspace s t n).length = n := by
  unfold linspace
  rw [List.length_map, List.length_range]

/-- Reading an in-range entry of a replicated list. -/
lemma getD_replicate (c : ℝ) (n j : ℕ) (h : j < n) :
    (List.replicate n c).getD j 0 = c := by
  rw [List.getD_eq_getElem?_getD, List.getElem?_replicate]
  simp [h]

/-- Negating a list elementwise negates each `getD` entry. -/
lemma getD_map_neg (l : List ℝ) (i : ℕ) :
    (l.map fun x => -x).getD i 0 = -(l.getD i 0) := by
  rw [List.getD_eq_getElem?_getD, List.getD_eq_getElem?_getD, List.getElem?_map]
  cases l[i]? <;> simp

/-- Entry `i` of the `np.gradient` model, for `i < Q.length`. -/
lemma npGradient_getD (Q : List ℝ) (dx : ℝ) (i : ℕ) (hi : i < Q.length) :
    (npGradient Q dx).getD i 0 =
      if i = 0 then (Q.getD 1 0 - Q.getD 0 0) / dx
      else if i = Q.length - 1 then
        (Q.getD (Q.length - 1) 0 - Q.getD (Q.length - 2) 0) / dx
      else (Q.getD (i + 1) 0 - Q.getD (i - 1) 0) / (2 * dx) := by
  unfold npGradient
  exact getD_range_map _ _ i hi

/-- Length of the `np.gradient` model. -/
lemma npGradient_length (Q : List ℝ) (dx : ℝ) :
    (npGradient Q dx).length = Q.length := by
  unfold npGradient
  rw [List.length_map, List.length_range]

/-- Entry `i` of the shoreline-change model in terms of the gradient model. -/
lemma predict_shoreline_change_getD (Q : List ℝ) (i : ℕ) :
    (predict_shoreline_change Q).getD i 0 = -((npGradient Q 100).getD i 0) := by
  unfold predict_shoreline_change
  exact getD_map_neg _ i

/-- Length of the shoreline-change model. -/
lemma predict_shoreline_change_length (Q : List ℝ) :
    (predict_shoreline_change Q).length = Q.length := by
  unfold predict_shoreline_change
  rw [List.length_map, npGradient_length]

/-- The sine factor of the transport formula is positive strictly between
0° and 90°. -/
lemma sin_two_radians_pos {angle : ℝ} (h0 : 0 < angle) (h90 : angle < 90) :
    0 < Real.sin (2 * (angle * Real.pi / 180)) := by
  have hpi := Real.pi_pos
  apply Real.sin_pos_of_pos_of_lt_pi
  · positivity
  · nlinarith [mul_pos (sub_pos.mpr h90) hpi]

/-! ## Claim theorems -/

/-- C1: for every wave height Hs and period Tp, `compute_wave_energy`
returns exactly `(1/8)·ρ·g·Hs² · (g·Tp)/(4π)` with ρ = 1025 and g = 9.81. -/
theorem wave_energy_exact_formula (Hs Tp : ℝ) :
    compute_wave_energy Hs Tp
      = (1/8) * 1025 * 9.81 * Hs^2 * ((9.81 * Tp) / (4 * Real.pi)) := rfl

/-- C10: at the boundary case Tp = 0 the group-velocity factor vanishes, so
`compute_wave_energy Hs 0 = 0` for every Hs. -/
theorem wave_energy_zero_period (Hs : ℝ) : compute_wave_energy Hs 0 = 0 := by
  rw [compute_wave_energy_eq]
  ring

/-- C9: the rate-table cost model computes `length · height · rate` with the
fixed table Seawall = 1500, Jetty = 2000, Breakwater = 2500; in particular a
Seawall of length 100 and height 10 costs 1,500,000. -/
theorem rate_table_cost_model :
    (∀ l h : ℝ,
      rateTableCost StructureType.Seawall l h = l * h * 1500 ∧
      rateTableCost StructureType.Jetty l h = l * h * 2000 ∧
      rateTableCost StructureType.Breakwater l h = l * h * 2500) ∧
    rateTableCost StructureType.Seawall 100 10 = 1500000 := by
  refine ⟨fun l h => ⟨rfl, rfl, rfl⟩, ?_⟩
  unfold rateTableCost rateTable
  norm_num

/-- C8 counterexample: the adapter `carbonate_impact` contains no handler,
so a failing solver's raw error value propagates unchanged — it is not
wrapped in any `ChemistryComputationError`-like value. -/
theorem carbonate_impact_raw_error_propagates :
    carbonate_impact (fun _ _ => Except.error "solver did not converge") 2300 2100
      = Except.error "solver did not converge" := rfl

/-- C8 amended: whenever the underlying solver fails, `carbonate_impact`
propagates the raw failure unchanged, and the chemistry page's try/except
catches it and renders the error message instead of crashing. -/
theorem carbonate_failure_surfaced (solver : ℝ → ℝ → Except String OmegaOut)
    (TA DIC : ℝ) (e : String) (h : solver TA DIC = Except.error e) :
    carbonate_impact solver TA DIC = Except.error e ∧
    chemistryPage solver TA DIC
      = ChemPageView.errorShown ("Error in carbonate calculation: " ++ e) := by
  have himp : carbonate_impact solver TA DIC = Except.error e := by
    unfold carbonate_impact
    rw [h]
    rfl
  refine ⟨himp, ?_⟩
  unfold chemistryPage
  rw [himp]

/-- C8 witness: a concrete always-failing solver exercises the error path. -/
theorem carbonate_failure_surfaced_witness :
    (fun (_ _ : ℝ) => (Except.error "x" : Except String OmegaOut)) 2300 2100
      = Except.error "x" ∧
    chemistryPage (fun _ _ => Except.error "x") 2300 2100
      = ChemPageView.errorShown ("Error in carbonate calculation: " ++ "x") :=
  ⟨rfl, (carbonate_failure_surfaced (fun _ _ => Except.error "x") 2300 2100 "x" rfl).2⟩

/-- C2 counterexample: at Hs = 1, angle = 60 (an angle past 45°), Tp = 1,
the sediment transport is positive, not negative — `sin(120°) > 0`. -/
theorem sediment_transport_positive_at_60 :
    0 < estimate_sediment_transport 1 60 1 := by
  rw [estimate_sediment_transport_eq]
  have hs := sin_two_radians_pos (by norm_num : (0:ℝ) < 60) (by norm_num : (60:ℝ) < 90)
  nlinarith [hs]

/-- C2 amended: for every Hs, angle and Tp the transport equals
`K·Hs²·sin(2·angle·π/180)·Tp` with K = 0.77 exactly, preserving the sign of
the sine factor without clamping; and for Hs, Tp > 0 it is positive (not
negative) for angles strictly between 45° and 90°. -/
theorem sediment_transport_exact_formula (Hs angle Tp : ℝ) :
    estimate_sediment_transport Hs angle Tp
      = 0.77 * Hs^2 * Real.sin (2 * (angle * Real.pi / 180)) * Tp ∧
    (0 < Hs → 0 < Tp → 45 < angle → angle < 90 →
      0 < estimate_sediment_transport Hs angle Tp) := by
  refine ⟨rfl, fun hH hT h45 h90 => ?_⟩
  rw [estimate_sediment_transport_eq]
  have hs := sin_two_radians_pos (lt_trans (by norm_num : (0:ℝ) < 45) h45) h90
  have h2 : (0:ℝ) < Hs^2 := pow_pos hH 2
  exact mul_pos (mul_pos (mul_pos (by norm_num) h2) hs) hT

/-- C2 witness: concrete instance Hs = 1, angle = 60, Tp = 1. -/
theorem sediment_transport_exact_formula_witness :
    (0:ℝ) < 1 ∧ 45 < (60:ℝ) ∧ (60:ℝ) < 90 ∧
    0 < estimate_sediment_transport 1 60 1 := by
  have h := sediment_transport_exact_formula 1 60 1
  exact ⟨by norm_num, by norm_num, by norm_num,
    h.2 (by norm_num) (by norm_num) (by norm_num) (by norm_num)⟩

/-- C7 counterexample: at Hs = 2, angle = 50 (strictly between 45° and 90°),
Tp = 3, the transport is positive, contradicting the claimed negativity on
that interval. -/
theorem sediment_transport_positive_at_50 :
    0 < estimate_sediment_transport 2 50 3 := by
  rw [estimate_sediment_transport_eq]
  have hs := sin_two_radians_pos (by norm_num : (0:ℝ) < 50) (by norm_num : (50:ℝ) < 90)
  nlinarith [hs]

/-- C7 amended: for fixed Hs, Tp > 0 the transport is zero at angle = 0 and
angle = 90 and positive for every angle strictly between 0° and 90°; its
sign does not change at 45° (45° is the maximum of the sine factor). -/
theorem sediment_transport_zeros_and_positivity (Hs Tp : ℝ)
    (hH : 0 < Hs) (hT : 0 < Tp) :
    estimate_sediment_transport Hs 0 Tp = 0 ∧
    estimate_sediment_transport Hs 90 Tp = 0 ∧
    ∀ angle : ℝ, 0 < angle → angle < 90 →
      0 < estimate_sediment_transport Hs angle Tp := by
  refine ⟨?_, ?_, fun angle h0 h90 => ?_⟩
  · rw [estimate_sediment_transport_eq]
    simp
  · rw [estimate_sediment_transport_eq]
    have h : 2 * ((90:ℝ) * Real.pi / 180) = Real.pi := by ring
    rw [h, Real.sin_pi]
    ring
  · rw [estimate_sediment_transport_eq]
    have hs := sin_two_radians_pos h0 h90
    have h2 : (0:ℝ) < Hs^2 := pow_pos hH 2
    exact mul_pos (mul_pos (mul_pos (by norm_num) h2) hs) hT

/-- C7 witness: concrete instance Hs = 1, Tp = 1, interior angle 30°. -/
theorem sediment_transport_zeros_and_positivity_witness :
    (0:ℝ) < 1 ∧ estimate_sediment_transport 1 0 1 = 0 ∧
    estimate_sediment_transport 1 90 1 = 0 ∧
    0 < estimate_sediment_transport 1 30 1 := by
  have h := sediment_transport_zeros_and_positivity 1 1 (by norm_num) (by norm_num)
  exact ⟨by norm_num, h.1, h.2.1, h.2.2 30 (by norm_num) (by norm_num)⟩

/-- C6: for Hs, Tp ≥ 0 the wave energy is non-negative and is monotonically
non-decreasing in Hs for fixed Tp. -/
theorem wave_energy_nonneg_monotone (Hs Tp : ℝ) (hH : 0 ≤ Hs) (hT : 0 ≤ Tp) :
    0 ≤ compute_wave_energy Hs Tp ∧
    ∀ Hs2 : ℝ, Hs ≤ Hs2 →
      compute_wave_energy Hs Tp ≤ compute_wave_energy Hs2 Tp := by
  have hA : 0 ≤ 9.81 * Tp / (4 * Real.pi) :=
    div_nonneg (mul_nonneg (by norm_num) hT) (by positivity)
  constructor
  · rw [compute_wave_energy_eq]
    exact mul_nonneg (mul_nonneg (by norm_num) (sq_nonneg Hs)) hA
  · intro Hs2 hle
    rw [compute_wave_energy_eq, compute_wave_energy_eq]
    have hsq : Hs^2 ≤ Hs2^2 := pow_le_pow_left₀ hH hle 2
    exact mul_le_mul_of_nonneg_right
      (mul_le_mul_of_nonneg_left hsq (by norm_num)) hA

/-- C6 witness: concrete instance Hs = 1 ≤ 3, Tp = 2. -/
theorem wave_energy_nonneg_monotone_witness :
    (0:ℝ) ≤ 1 ∧ (0:ℝ) ≤ 2 ∧ 0 ≤ compute_wave_energy 1 2 ∧
    compute_wave_energy 1 2 ≤ compute_wave_energy 3 2 := by
  have h := wave_energy_nonneg_monotone 1 2 (by norm_num) (by norm_num)
  exact ⟨by norm_num, by norm_num, h.1, h.2 3 (by norm_num)⟩

/-- Applying the shoreline-change model to a constant sequence of length at
least 2 yields all-zero output. -/
lemma predict_const_zero (n : ℕ) (hn : 2 ≤ n) (c : ℝ) :
    ∀ x ∈ predict_shoreline_change (List.replicate n c), x = 0 := by
  intro x hx
  rw [List.mem_iff_getElem] at hx
  obtain ⟨i, hilt, rfl⟩ := hx
  have hlen : (predict_shoreline_change (List.replicate n c)).length = n := by
    rw [predict_shoreline_change_length, List.length_replicate]
  have hin : i < n := by
    rw [← hlen]
    exact hilt
  have hgetD : (predict_shoreline_change (List.replicate n c)).getD i 0
      = (predict_shoreline_change (List.replicate n c))[i] := by
    rw [List.getD_eq_getElem?_getD, List.getElem?_eq_getElem hilt]
    rfl
  rw [← hgetD, predict_shoreline_change_getD,
    npGradient_getD _ _ i (by rw [List.length_replicate]; exact hin)]
  rw [List.length_replicate]
  split_ifs with h0 hlast
  · rw [getD_replicate c n 1 (by omega), getD_replicate c n 0 (by omega)]
    norm_num
  · rw [getD_replicate c n (n - 1) (by omega), getD_replicate c n (n - 2) (by omega)]
    norm_num
  · rw [getD_replicate c n (i + 1) (by omega), getD_replicate c n (i - 1) (by omega)]
    norm_num

/-- C3: the shoreline-change function returns the negated `np.gradient` with
dx = 100 — one-sided differences at the two boundary indices, central
differences at interior indices — and a constant input yields all zeros. -/
theorem shoreline_change_gradient (Q : List ℝ) (h : 2 ≤ Q.length) :
    (predict_shoreline_change Q).length = Q.length ∧
    (predict_shoreline_change Q).getD 0 0 = -((Q.getD 1 0 - Q.getD 0 0) / 100) ∧
    (predict_shoreline_change Q).getD (Q.length - 1) 0
      = -((Q.getD (Q.length - 1) 0 - Q.getD (Q.length - 2) 0) / 100) ∧
    (∀ i, 0 < i → i < Q.length - 1 →
      (predict_shoreline_change Q).getD i 0
        = -((Q.getD (i + 1) 0 - Q.getD (i - 1) 0) / (2 * 100))) ∧
    (∀ c : ℝ, ∀ x ∈ predict_shoreline_change (List.replicate Q.length c), x = 0) := by
  refine ⟨predict_shoreline_change_length Q, ?_, ?_, ?_,
    fun c => predict_const_zero _ h c⟩
  · rw [predict_shoreline_change_getD, npGradient_getD Q 100 0 (by omega)]
    rw [if_pos rfl]
  · rw [predict_shoreline_change_getD,
      npGradient_getD Q 100 (Q.length - 1) (by omega)]
    rw [if_neg (by omega), if_pos rfl]
  · intro i h0 hlt
    rw [predict_shoreline_change_getD, npGradient_getD Q 100 i (by omega)]
    rw [if_neg (by omega), if_neg (by omega)]

/-- C3 witness: concrete input [1, 2, 4], of length 3. -/
theorem shoreline_change_gradient_witness :
    2 ≤ ([1, 2, 4] : List ℝ).length ∧
    (predict_shoreline_change [1, 2, 4]).getD 0 0 = -(1 / 100) ∧
    (predict_shoreline_change [1, 2, 4]).getD 1 0 = -(3 / 200) ∧
    (predict_shoreline_change [1, 2, 4]).getD 2 0 = -(1 / 50) := by
  have h := shoreline_change_gradient [1, 2, 4] (by norm_num)
  have h1 := h.2.1
  have h2 := h.2.2.2.1 1 (by norm_num) (by norm_num)
  have h3 := h.2.2.1
  norm_num [List.getD_eq_getElem?_getD] at h1 h2 h3
  refine ⟨by norm_num, ?_⟩
  norm_num [List.getD_eq_getElem?_getD]
  exact ⟨h1, h2, h3⟩

/-- First entry of the linspace model. -/
lemma linspace_first (s t : ℝ) (n : ℕ) (hn : 0 < n) :
    (linspace s t n).getD 0 0 = s := by
  rw [linspace_getD s t n 0 hn]
  norm_num

/-- Last entry of a 20-point linspace is exactly the stop value. -/
lemma linspace_last20 (s t : ℝ) : (linspace s t 20).getD 19 0 = t := by
  rw [linspace_getD s t 20 19 (by norm_num)]
  push_cast
  ring

/-- Consecutive entries of a 20-point linspace differ by the constant step. -/
lemma linspace_spacing20 (s t : ℝ) (i : ℕ) (hi : i + 1 < 20) :
    (linspace s t 20).getD (i + 1) 0 - (linspace s t 20).getD i 0
      = (t - s) / 19 := by
  rw [linspace_getD s t 20 (i + 1) hi, linspace_getD s t 20 i (by omega)]
  push_cast
  ring

/-- A 20-point linspace with ordered endpoints is non-decreasing. -/
lemma linspace_mono20 (s t : ℝ) (hst : s ≤ t) (i j : ℕ) (hij : i ≤ j)
    (hj : j < 20) :
    (linspace s t 20).getD i 0 ≤ (linspace s t 20).getD j 0 := by
  rw [linspace_getD s t 20 i (lt_of_le_of_lt hij hj), linspace_getD s t 20 j hj]
  have hc : (i:ℝ) ≤ (j:ℝ) := Nat.cast_le.mpr hij
  have hts : 0 ≤ t - s := sub_nonneg.mpr hst
  have h1 : (i:ℝ) * (t - s) ≤ (j:ℝ) * (t - s) := mul_le_mul_of_nonneg_right hc hts
  push_cast
  linarith [h1]

/-- All entries of a degenerate linspace (equal endpoints) are that value. -/
lemma linspace_const (s : ℝ) (n : ℕ) : ∀ x ∈ linspace s s n, x = s := by
  intro x hx
  unfold linspace at hx
  simp only [List.mem_map, List.mem_range] at hx
  obtain ⟨i, _, rfl⟩ := hx
  ring

/-- C4: each sweep is exactly 20 evenly spaced values from
`max(floor, center − halfWidth)` to `min(ceiling, center + halfWidth)` with
both endpoints included; in particular for Hs = 2 the height sweep is a
length-20 non-decreasing sequence from 1.5 to 2.5. -/
theorem sweep_linspace_endpoints (Hs angle : ℝ) :
    (Hs_array Hs).length = 20 ∧
    (Hs_array Hs).getD 0 0 = max 0.1 (Hs - 0.5) ∧
    (Hs_array Hs).getD 19 0 = Hs + 0.5 ∧
    (∀ i, i + 1 < 20 →
      (Hs_array Hs).getD (i + 1) 0 - (Hs_array Hs).getD i 0
        = (Hs + 0.5 - max 0.1 (Hs - 0.5)) / 19) ∧
    (angle_array angle).length = 20 ∧
    (angle_array angle).getD 0 0 = max 0 (angle - 10) ∧
    (angle_array angle).getD 19 0 = min (angle + 10) 90 ∧
    (∀ i, i + 1 < 20 →
      (angle_array angle).getD (i + 1) 0 - (angle_array angle).getD i 0
        = (min (angle + 10) 90 - max 0 (angle - 10)) / 19) ∧
    (Hs_array 2).getD 0 0 = 1.5 ∧
    (Hs_array 2).getD 19 0 = 2.5 ∧
    ∀ i j, i ≤ j → j < 20 → (Hs_array 2).getD i 0 ≤ (Hs_array 2).getD j 0 := by
  have hmax2 : max (0.1:ℝ) (2 - 0.5) = 2 - 0.5 := max_eq_right (by norm_num)
  refine ⟨?_, ?_, ?_, ?_, ?_, ?_, ?_, ?_, ?_, ?_, ?_⟩
  · unfold Hs_array
    exact linspace_length _ _ 20
  · unfold Hs_array
    exact linspace_first _ _ 20 (by norm_num)
  · unfold Hs_array
    exact linspace_last20 _ _
  · intro i hi
    unfold Hs_array
    exact linspace_spacing20 _ _ i hi
  · unfold angle_array
    exact linspace_length _ _ 20
  · unfold angle_array
    exact linspace_first _ _ 20 (by norm_num)
  · unfold angle_array
    exact linspace_last20 _ _
  · intro i hi
    unfold angle_array
    exact linspace_spacing20 _ _ i hi
  · unfold Hs_array
    rw [linspace_first _ _ 20 (by norm_num), hmax2]
    norm_num
  · unfold Hs_array
    rw [linspace_last20]
    norm_num
  · intro i j hij hj
    unfold Hs_array
    refine linspace_mono20 _ _ ?_ i j hij hj
    rw [hmax2]
    norm_num

/-- C4 witness: concrete sweep endpoints at Hs = 2, angle = 20. -/
theorem sweep_linspace_endpoints_witness :
    (Hs_array 2).length = 20 ∧ (Hs_array 2).getD 0 0 = 1.5 ∧
    (Hs_array 2).getD 19 0 = 2.5 ∧
    (Hs_array 2).getD 0 0 ≤ (Hs_array 2).getD 5 0 := by
  have h := sweep_linspace_endpoints 2 20
  exact ⟨h.1, h.2.2.2.2.2.2.2.2.1, h.2.2.2.2.2.2.2.2.2.1,
    h.2.2.2.2.2.2.2.2.2.2 0 5 (by norm_num) (by norm_num)⟩

/-- C5 counterexample: with the angle sweep centred at −20 the computed
lower bound 0 strictly exceeds the upper bound −10, yet the 20 values are
not all equal — the first and last entries differ. -/
theorem degenerate_sweep_not_constant :
    min ((-20:ℝ) + 10) 90 < max 0 ((-20:ℝ) - 10) ∧
    (angle_array (-20)).getD 0 0 ≠ (angle_array (-20)).getD 19 0 := by
  constructor
  · rw [min_eq_left (by norm_num), max_eq_left (by norm_num)]
    norm_num
  · unfold angle_array
    rw [linspace_first _ _ 20 (by norm_num), linspace_last20]
    rw [max_eq_left (by norm_num), min_eq_left (by norm_num)]
    norm_num

/-- C5 amended: when the computed lower bound equals the upper bound, all 20
sweep values collapse to that single repeated value (tolerated, not an
error). -/
theorem degenerate_sweep_collapse (Hs angle : ℝ)
    (h1 : max 0.1 (Hs - 0.5) = Hs + 0.5)
    (h2 : max 0 (angle - 10) = min (angle + 10) 90) :
    (∀ x ∈ Hs_array Hs, x = Hs + 0.5) ∧
    (∀ x ∈ angle_array angle, x = min (angle + 10) 90) := by
  constructor
  · unfold Hs_array
    rw [h1]
    exact linspace_const _ 20
  · unfold angle_array
    rw [h2]
    exact linspace_const _ 20

/-- C5 witness: Hs = −0.4 and angle = −10 make both bounds coincide. -/
theorem degenerate_sweep_collapse_witness :
    max (0.1:ℝ) (-0.4 - 0.5) = -0.4 + 0.5 ∧
    max (0:ℝ) (-10 - 10) = min (-10 + 10) 90 ∧
    ∀ x ∈ angle_array (-10), x = min ((-10:ℝ) + 10) 90 := by
  have hmaxH : max (0.1:ℝ) (-0.4 - 0.5) = -0.4 + 0.5 := by
    rw [max_eq_left (by norm_num)]
    norm_num
  have hmaxA : max (0:ℝ) ((-10:ℝ) - 10) = min ((-10:ℝ) + 10) 90 := by
    rw [max_eq_left (by norm_num), min_eq_left (by norm_num)]
    norm_num
  exact ⟨hmaxH, hmaxA, (degenerate_sweep_collapse (-0.4) (-10) hmaxH hmaxA).2⟩
